import Mathlib

set_option maxRecDepth 40000

/-!
# Verification of the `BettingDatabase` engine (`src/database.js`)

This file gives a shallow embedding of the match/odds ingestion and bet
settlement engine implemented by the `BettingDatabase` class in
`src/database.js`, and proves (or refutes) the frozen specification claims
against it.

Modelling conventions:
* SQLite tables become Lean lists of structures kept in rowid (insertion)
  order; `AUTOINCREMENT` ids are `length + 1` (no row is ever deleted, so
  this coincides with SQLite's monotone id assignment).
* Monetary and odds values (`DECIMAL` columns, JavaScript numbers) are
  modelled as `ℚ`; every quantity appearing in the claims is exact.
* Wall-clock columns (`created_at`, `updated_at`, `match_time`, `placed_at`,
  `settled_at`) are abstracted away; the calendar date used by the dedup key
  (`new Date().toISOString().split('T')[0]`) is passed explicitly as a
  `today : String` parameter.
* `PRAGMA foreign_keys = ON` is active (set in `initialize`), so an
  `INSERT INTO bets` with an unknown `match_id` fails and the surrounding
  `catch` returns `false`; this is modelled as an explicit existence check.
* Error paths that only fire on storage-engine failure (the `catch` blocks)
  are outside the model; the pure model cannot fail to read or write.
-/

namespace VSoccer

/-- A row of `tournament_stages`. -/
structure StageRow where
  stage_id : Nat
  stage_name : String
deriving Repr, DecidableEq

/-- A row of `teams`. -/
structure TeamRow where
  team_id : Nat
  team_name : String
deriving Repr, DecidableEq

/-- A row of `matches`. -/
structure MatchRow where
  match_id : Nat
  match_number : Option Nat
  stage_id : Nat
  home_team_id : Nat
  away_team_id : Nat
  home_score : ℚ
  away_score : ℚ
  full_time_score : Option String
  match_date : String
  status : String
  result : Option String
  is_final : Bool
deriving Repr, DecidableEq

/-- A row of `betting_odds`. Individual odds columns are nullable. -/
structure OddsRow where
  odds_id : Nat
  match_id : Nat
  home_odds : Option ℚ
  draw_odds : Option ℚ
  away_odds : Option ℚ
  is_active : Bool
deriving Repr, DecidableEq

/-- The singleton `account` row (`account_id = 1`). -/
structure Account where
  balance : ℚ
  total_deposits : ℚ
  total_withdrawals : ℚ
  total_wins : Nat
  total_losses : Nat
  total_profit_loss : ℚ
deriving Repr, DecidableEq

/-- A row of `bets`. -/
structure Bet where
  bet_id : Nat
  match_id : Nat
  team_bet_on : String
  odds_taken : ℚ
  amount : ℚ
  potential_win : ℚ
  actual_win : ℚ
  status : String
  profit_loss : ℚ
deriving Repr, DecidableEq

/-- A row of `transactions`. -/
structure Txn where
  bet_id : Option Nat
  type : String
  amount : ℚ
  balance_before : ℚ
  balance_after : ℚ
  description : String
deriving Repr, DecidableEq

/-- The whole database state. -/
structure DB where
  stages : List StageRow
  teams : List TeamRow
  «matches» : List MatchRow
  odds : List OddsRow
  account : Account
  bets : List Bet
  transactions : List Txn
deriving Repr, DecidableEq

/-- `this.initialBalance` in the constructor. -/
def initialBalance : ℚ := 1000

/-- The transaction written by `initializeAccount` for a fresh database:
`('DEPOSIT', 1000, 0, 1000, 'Initial account setup')`. -/
def initialDepositTxn : Txn :=
  ⟨none, "DEPOSIT", initialBalance, 0, initialBalance, "Initial account setup"⟩

/-- The state after `initialize` (table creation plus `initializeAccount`) on
a fresh database: the singleton account row with balance 1000 and the
initial-setup DEPOSIT transaction. -/
def DB.init : DB :=
  { stages := [], teams := [], «matches» := [], odds := []
    account := ⟨initialBalance, 0, 0, 0, 0, 0⟩
    bets := []
    transactions := [initialDepositTxn] }

/-- `getOrCreateStage(stageName)`: look the name up by exact equality
(`WHERE stage_name = ?`, BINARY collation — no trimming or case folding),
returning the existing id, or insert a fresh row. -/
def getOrCreateStage (stageName : String) (s : DB) : Nat × DB :=
  match s.stages.find? (fun t => t.stage_name = stageName) with
  | some t => (t.stage_id, s)
  | none =>
      let sid := s.stages.length + 1
      (sid, { s with stages := s.stages ++ [⟨sid, stageName⟩] })

/-- `getOrCreateTeam(teamName)`: exact-string lookup or insert, exactly as
`getOrCreateStage`. -/
def getOrCreateTeam (teamName : String) (s : DB) : Nat × DB :=
  match s.teams.find? (fun t => t.team_name = teamName) with
  | some t => (t.team_id, s)
  | none =>
      let tid := s.teams.length + 1
      (tid, { s with teams := s.teams ++ [⟨tid, teamName⟩] })

/-- JavaScript `Number(s)` on a string, restricted to the decimal grammar
relevant to score tokens: surrounding whitespace is trimmed, the empty string
gives `0`, otherwise an optional sign followed by digits with an optional
fractional part. Every other string (including exotic numeric forms such as
hex or exponent literals, which cannot occur in `"H:A"` score text) is NaN,
encoded as `none`. -/
def jsNumber (s : String) : Option ℚ :=
  let t := s.trim
  if t = "" then some 0
  else
    let sign : ℚ := if t.startsWith "-" then -1 else 1
    let u := if t.startsWith "-" || t.startsWith "+" then t.drop 1 else t
    match u.splitOn "." with
    | [a] =>
        if a ≠ "" ∧ a.all Char.isDigit then
          some (sign * ((a.toNat?.getD 0 : Nat) : ℚ))
        else none
    | [a, b] =>
        if (a ≠ "" ∨ b ≠ "") ∧ a.all Char.isDigit ∧ b.all Char.isDigit then
          some (sign * (((a.toNat?.getD 0 : Nat) : ℚ) +
            ((b.toNat?.getD 0 : Nat) : ℚ) / (10 ^ b.length)))
        else none
    | _ => none

/-- JavaScript `scores[i] || 0` where `scores = str.split(':').map(Number)`:
an out-of-range index (`undefined`) and NaN both default to `0`; a parsed
`0` is falsy but `0 || 0` is again `0`, so a parsed value is returned as is. -/
def jsOrZero : Option (Option ℚ) → ℚ
  | none => 0
  | some none => 0
  | some (some q) => q

/-- The score extracted for position `i` from a full-time score string, per
`saveMatch`: `split(':').map(Number)` then `|| 0`. -/
def scoreAt (sc : String) (i : Nat) : ℚ :=
  jsOrZero (((sc.splitOn ":").get? i).map jsNumber)

/-- Result derivation in `saveMatch`: home > away gives HOME_WIN, away > home
gives AWAY_WIN, otherwise DRAW. -/
def deriveResult (homeScore awayScore : ℚ) : String :=
  if homeScore > awayScore then "HOME_WIN"
  else if awayScore > homeScore then "AWAY_WIN"
  else "DRAW"

/-- JavaScript truthiness of `matchData.fullTimeScore` (a missing field and
the empty string are falsy). -/
def scorePresent : Option String → Bool
  | none => false
  | some sc => sc ≠ ""

/-- The `matchData` argument of `saveMatch` (a scraped match observation). -/
structure MatchData where
  matchNo : Option Nat
  tournament_stage : String
  homeTeam : String
  awayTeam : String
  fullTimeScore : Option String
  is_final : Bool
deriving Repr, DecidableEq

/-- The `(homeScore, awayScore, result)` triple computed by the score-parsing
block of `saveMatch`: all three keep their initial values
(`0, 0, null`) when `fullTimeScore` is falsy. -/
def parsedScores (fts : Option String) : ℚ × ℚ × Option String :=
  match fts with
  | none => (0, 0, none)
  | some sc =>
      if sc = "" then (0, 0, none)
      else (scoreAt sc 0, scoreAt sc 1, some (deriveResult (scoreAt sc 0) (scoreAt sc 1)))

/-- The identity-resolution prefix of `saveMatch`/`saveOdds`: resolve the
stage and both team names (in source order), returning the dedup key
`(stage_id, home_team_id, away_team_id, match_date)` together with the
possibly-extended state. -/
def resolveKey (stage home away today : String) (s : DB) :
    (Nat × Nat × Nat × String) × DB :=
  let p1 := getOrCreateStage stage s
  let p2 := getOrCreateTeam home p1.2
  let p3 := getOrCreateTeam away p2.2
  ((p1.1, p2.1, p3.1, today), p3.2)

/-- The natural dedup key of a `matches` row. -/
def matchKey (m : MatchRow) : Nat × Nat × Nat × String :=
  (m.stage_id, m.home_team_id, m.away_team_id, m.match_date)

/-- The field update applied by `saveMatch` to an existing row with the same
key (`UPDATE matches SET home_score = ?, away_score = ?, full_time_score = ?,
status = 'COMPLETED', result = ?, is_final = ? ...`). -/
def updMatch (md : MatchData) (m : MatchRow) : MatchRow :=
  let p := parsedScores md.fullTimeScore
  { m with
    home_score := p.1
    away_score := p.2.1
    full_time_score := md.fullTimeScore
    status := "COMPLETED"
    result := p.2.2
    is_final := md.is_final }

/-- The fresh row inserted by `saveMatch` when no row with the key exists. -/
def newMatchRow (md : MatchData) (k : Nat × Nat × Nat × String) (mid : Nat) :
    MatchRow :=
  let p := parsedScores md.fullTimeScore
  { match_id := mid
    match_number := md.matchNo
    stage_id := k.1
    home_team_id := k.2.1
    away_team_id := k.2.2.1
    home_score := p.1
    away_score := p.2.1
    full_time_score := md.fullTimeScore
    match_date := k.2.2.2
    status := "COMPLETED"
    result := p.2.2
    is_final := md.is_final }

/-- The upsert half of `saveMatch`, after identity resolution: the dedup
`SELECT ... WHERE stage_id = ? AND home_team_id = ? AND away_team_id = ? AND
match_date = ?` takes the first matching row (lowest rowid); if one exists
it is updated in place (`UPDATE ... WHERE match_id = ?`) and its id
returned, otherwise a fresh COMPLETED row is inserted. -/
def saveMatchCore (md : MatchData) (k : Nat × Nat × Nat × String) (s1 : DB) :
    Nat × DB :=
  match s1.«matches».find? (fun m => matchKey m = k) with
  | some m =>
      (m.match_id,
        { s1 with
          «matches» := s1.«matches».map
            (fun m' => if m'.match_id = m.match_id then updMatch md m' else m') })
  | none =>
      let mid := s1.«matches».length + 1
      (mid, { s1 with «matches» := s1.«matches» ++ [newMatchRow md k mid] })

/-- `saveMatch(matchData)`: resolve identities, parse the score, then upsert
on the `(stage_id, home_team_id, away_team_id, match_date)` key. -/
def saveMatch (md : MatchData) (today : String) (s : DB) : Nat × DB :=
  let r := resolveKey md.tournament_stage md.homeTeam md.awayTeam today s
  saveMatchCore md r.1 r.2

/-- The `oddsData` argument of `saveOdds` (a scraped odds observation);
individual odds values may be missing. -/
structure OddsData where
  tournament_stage : String
  home_team : String
  away_team : String
  home_odds : Option ℚ
  draw_odds : Option ℚ
  away_odds : Option ℚ
deriving Repr, DecidableEq

/-- The scheduled-match half of `saveOdds`, after identity resolution: find
the most recently created SCHEDULED match for this stage/team pairing
(`ORDER BY created_at DESC LIMIT 1`; creation order coincides with list
order since no row is deleted) or insert a fresh SCHEDULED one. -/
def ensureScheduled (sid hid aid : Nat) (today : String) (s1 : DB) : Nat × DB :=
  match (s1.«matches».filter
      (fun m => m.stage_id = sid && m.home_team_id = hid &&
        m.away_team_id = aid && m.status = "SCHEDULED")).getLast? with
  | some m => (m.match_id, s1)
  | none =>
      let mid := s1.«matches».length + 1
      (mid,
        { s1 with «matches» := s1.«matches» ++
            [{ match_id := mid, match_number := none, stage_id := sid,
               home_team_id := hid, away_team_id := aid, home_score := 0,
               away_score := 0, full_time_score := none, match_date := today,
               status := "SCHEDULED", result := none, is_final := false }] })

/-- `saveOdds(oddsData)`: resolve identities, get or create a SCHEDULED
match for them, then append an odds snapshot row. -/
def saveOdds (od : OddsData) (today : String) (s : DB) : Nat × DB :=
  let r := resolveKey od.tournament_stage od.home_team od.away_team today s
  let pair := ensureScheduled r.1.1 r.1.2.1 r.1.2.2.1 today r.2
  let mid := pair.1
  let s2 := pair.2
  (mid,
    { s2 with odds := s2.odds ++
        [⟨s2.odds.length + 1, mid, od.home_odds, od.draw_odds, od.away_odds, true⟩] })

/-- `placeBet(matchId, teamToBetOn, amount, odds)`: read the account balance,
reject when `currentBalance < amount` (returning `false`, modelled `none`);
otherwise insert a PENDING bet with `potential_win = amount * odds`, debit
the account and append a BET_PLACED transaction. The `INSERT INTO bets` is
subject to `FOREIGN KEY (match_id) REFERENCES matches(match_id)` with
`PRAGMA foreign_keys = ON`, so a nonexistent match makes the insert throw
before any write and the `catch` returns `false`. No other precondition is
checked: the match status, the sign of the stake and the odds value are
taken as given. -/
def placeBet (matchId : Nat) (teamToBetOn : String) (amount odds : ℚ)
    (s : DB) : Option Nat × DB :=
  let currentBalance := s.account.balance
  if currentBalance < amount then (none, s)
  else if (s.«matches».find? (fun m => m.match_id = matchId)).isNone then (none, s)
  else
    let potentialWin := amount * odds
    let betId := s.bets.length + 1
    let newBalance := currentBalance - amount
    (some betId,
      { s with
        bets := s.bets ++
          [⟨betId, matchId, teamToBetOn, odds, amount, potentialWin, 0, "PENDING", 0⟩]
        account := { s.account with balance := newBalance }
        transactions := s.transactions ++
          [⟨some betId, "BET_PLACED", amount, currentBalance, newBalance,
            "Bet placed on " ++ teamToBetOn⟩] })

/-- `determineBetResult(teamBetOn, matchResult, homeScore, awayScore)`,
verbatim from the source: the score parameters are accepted but never read. -/
def determineBetResult (teamBetOn matchResult : String)
    (homeScore awayScore : ℚ) : String :=
  if matchResult = "DRAW" then
    if teamBetOn = "DRAW" then "WIN" else "LOSS"
  else if teamBetOn = "HOME" then
    if matchResult = "HOME_WIN" then "WIN" else "LOSS"
  else if teamBetOn = "AWAY" then
    if matchResult = "AWAY_WIN" then "WIN" else "LOSS"
  else "LOSS"

/-- The bet status written by the settlement branch of `settleBet` for a
given `determineBetResult` outcome. -/
def settleStatus (betResult : String) : String :=
  if betResult = "WIN" then "WON"
  else if betResult = "LOSS" then "LOST"
  else "PUSH"

/-- One pending bet as returned by the settlement `SELECT`, which JOINs the
match and both team rows (a bet whose match or team rows are missing is
silently dropped by the inner join). -/
structure PendingBet where
  bet : Bet
  matchRow : MatchRow
  home_team : String
  away_team : String
deriving Repr, DecidableEq

/-- One row candidate of the settlement `SELECT`: the bet qualifies if it is
a PENDING bet on the requested match and its inner joins against the match
and team tables succeed. -/
def pendingRow (ms : List MatchRow) (ts : List TeamRow) (matchId : Nat)
    (b : Bet) : Option PendingBet :=
  if b.match_id = matchId ∧ b.status = "PENDING" then
    match ms.find? (fun m => m.match_id = b.match_id) with
    | some m =>
        match ts.find? (fun t => t.team_id = m.home_team_id),
              ts.find? (fun t => t.team_id = m.away_team_id) with
        | some ht, some awayT => some ⟨b, m, ht.team_name, awayT.team_name⟩
        | some _, none => none
        | none, _ => none
    | none => none
  else none

/-- The settlement `SELECT`: all bets of the match with status PENDING,
inner-joined with their match row and both team rows. -/
def pendingJoin (s : DB) (matchId : Nat) : List PendingBet :=
  s.bets.filterMap (pendingRow s.«matches» s.teams matchId)

/-- The running state of the settlement loop in `settleBet`. -/
structure SettleSt where
  balance : ℚ
  wins : Nat
  losses : Nat
  pnl : ℚ
  bets : List Bet
  txns : List Txn
deriving Repr, DecidableEq

/-- The `determineBetResult` call made by the settlement loop for one
pending bet (the joined match row supplies the score arguments). -/
def betOutcome (result : String) (pb : PendingBet) : String :=
  determineBetResult pb.bet.team_bet_on result
    pb.matchRow.home_score pb.matchRow.away_score

/-- `actualWin` as computed by the settlement branches: the full potential
win on WIN, zero on LOSS, the returned stake otherwise (PUSH). -/
def settleActualWin (br : String) (b : Bet) : ℚ :=
  if br = "WIN" then b.potential_win else if br = "LOSS" then 0 else b.amount

/-- `profitLoss` as computed by the settlement branches. -/
def settleProfitLoss (br : String) (b : Bet) : ℚ :=
  if br = "WIN" then b.potential_win - b.amount
  else if br = "LOSS" then -b.amount else 0

/-- The `description` string of the settlement transaction (JavaScript
renders a null `full_time_score` as the text `null` in the template). -/
def settleDescription (result : String) (pb : PendingBet) : String :=
  let br := betOutcome result pb
  let ftsText := match pb.matchRow.full_time_score with
    | some t => t
    | none => "null"
  let verb := if br = "WIN" then "won" else if br = "LOSS" then "lost" else "pushed"
  "Bet " ++ verb ++ " on " ++ pb.bet.team_bet_on ++ " (" ++
    pb.home_team ++ " " ++ ftsText ++ " " ++ pb.away_team ++ ")"

/-- The `UPDATE bets ... WHERE bet_id = ?` applied when settling `pb`. -/
def settleUpd (result : String) (pb : PendingBet) (b' : Bet) : Bet :=
  if b'.bet_id = pb.bet.bet_id then
    { b' with
      status := settleStatus (betOutcome result pb)
      actual_win := settleActualWin (betOutcome result pb) pb.bet
      profit_loss := settleProfitLoss (betOutcome result pb) pb.bet }
  else b'

/-- The BET_SETTLEMENT transaction row appended when settling `pb` with the
running balance `bal`. -/
def settleTxn (result : String) (bal : ℚ) (pb : PendingBet) : Txn :=
  ⟨some pb.bet.bet_id, "BET_SETTLEMENT",
    settleProfitLoss (betOutcome result pb) pb.bet, bal,
    bal + settleProfitLoss (betOutcome result pb) pb.bet,
    settleDescription result pb⟩

/-- The body of the settlement loop for one pending bet: determine the
outcome, compute status/actual win/profit-loss, bump the win or loss
counter, update the bet row (`WHERE bet_id = ?`), adjust the running balance
and append a BET_SETTLEMENT transaction. -/
def settleStep (result : String) (st : SettleSt) (pb : PendingBet) : SettleSt :=
  let br := betOutcome result pb
  { balance := st.balance + settleProfitLoss br pb.bet
    wins := if br = "WIN" then st.wins + 1 else st.wins
    losses := if br = "LOSS" then st.losses + 1 else st.losses
    pnl := st.pnl + settleProfitLoss br pb.bet
    bets := st.bets.map (settleUpd result pb)
    txns := st.txns ++ [settleTxn result st.balance pb] }

/-- `settleBet(matchId, result)`: fetch the pending bets of the match (with
their joined match/team rows); if there are none, return with no writes;
otherwise settle each bet in turn against the in-memory running balance and
counters, and finally write the accumulated balance, win/loss counters and
total profit-loss back to the account row. -/
def settleBet (matchId : Nat) (result : String) (s : DB) : DB :=
  let pending := pendingJoin s matchId
  if pending.isEmpty then s
  else
    let a := s.account
    let fin := pending.foldl (settleStep result)
      ⟨a.balance, a.total_wins, a.total_losses, a.total_profit_loss,
        s.bets, s.transactions⟩
    { s with
      bets := fin.bets
      transactions := fin.txns
      account := { a with
        balance := fin.balance
        total_wins := fin.wins
        total_losses := fin.losses
        total_profit_loss := fin.pnl } }

/-! ## The step relation and reachable states

A reachable state is any state produced from the freshly initialized
database by a sequence of the public mutating operations of
`BettingDatabase`. -/

/-- One public mutating operation of `BettingDatabase`. -/
inductive Step : DB → DB → Prop
  | stage (name : String) (s : DB) : Step s (getOrCreateStage name s).2
  | team (name : String) (s : DB) : Step s (getOrCreateTeam name s).2
  | save (md : MatchData) (today : String) (s : DB) :
      Step s (saveMatch md today s).2
  | odds (od : OddsData) (today : String) (s : DB) :
      Step s (saveOdds od today s).2
  | place (matchId : Nat) (team : String) (amount odds : ℚ) (s : DB) :
      Step s (placeBet matchId team amount odds s).2
  | settle (matchId : Nat) (result : String) (s : DB) :
      Step s (settleBet matchId result s)

/-- The reachable states of the engine. -/
inductive Reach : DB → Prop
  | init : Reach DB.init
  | step {s s' : DB} : Reach s → Step s s' → Reach s'

/-! ## Specification-side comparator definitions

These definitions follow the words of the specification (not the source);
they exist only to be compared against the source-derived definitions
above. -/

/-- Follows the spec's words (§4.1): normalization is "trim + case-fold
before lookup/insert". -/
def specNormalize (name : String) : String := name.trim.toLower

/-- Follows the spec's words (§4.2): a score-string side "parses as an
integer" — an optional sign followed by decimal digits, with surrounding
whitespace tolerated — or it does not. -/
def specIntParse (s : String) : Option ℤ :=
  let t := s.trim
  let sign : ℤ := if t.startsWith "-" then -1 else 1
  let u := if t.startsWith "-" || t.startsWith "+" then t.drop 1 else t
  if u ≠ "" ∧ u.all Char.isDigit then some (sign * (u.toNat?.getD 0 : Nat))
  else none

/-- Follows the spec's words: the 9-row outcome table of §4.6. -/
def specOutcome (side matchResult : String) : String :=
  if (side = "DRAW" ∧ matchResult = "DRAW") ∨
     (side = "HOME" ∧ matchResult = "HOME_WIN") ∨
     (side = "AWAY" ∧ matchResult = "AWAY_WIN") then "WIN"
  else "LOSS"

/-! ## Derived notions used in claim statements -/

/-- Validated replay of a transaction journal: starting from `v`, check that
each transaction's `balance_before` is the running balance and step to its
`balance_after`; the replay fails (`none`) on a mismatched link. -/
def txnChain : ℚ → List Txn → Option ℚ
  | v, [] => some v
  | v, t :: ts => if t.balance_before = v then txnChain t.balance_after ts else none

/-- At most one `matches` row per natural dedup key. -/
def tupleUnique (l : List MatchRow) : Prop := (l.map matchKey).Nodup

/-- The transaction journal chain-replays from 0 to the stored balance, and
its first entry is the initial-setup deposit. -/
def ledgerInv (s : DB) : Prop :=
  s.transactions.head? = some initialDepositTxn ∧
  txnChain 0 s.transactions = some s.account.balance

/-- A non-null `result` only appears on COMPLETED matches, and SCHEDULED
matches always have a null `result`. -/
def resultStatusInv (s : DB) : Prop :=
  ∀ m ∈ s.«matches», (m.result.isSome → m.status = "COMPLETED") ∧
    (m.status = "SCHEDULED" → m.result = none)

/-! ## Concrete fixtures used in counterexamples and witnesses -/

/-- A sample odds observation (odds 2.5 / 3 / 2.8). -/
def odsA : OddsData :=
  ⟨"Matchday 1", "Team A", "Team B", some (5/2), some 3, some (14/5)⟩

/-- A sample calendar date for the `today` parameter. -/
def dayA : String := "2026-10-12"

/-- A sample completed-match observation with score 2:1. -/
def mdA : MatchData :=
  ⟨some 1, "Matchday 1", "Team A", "Team B", some "2:1", true⟩

/-- A sample completed-match observation whose score string is malformed on
the home side (`"2.5"` is a number but not an integer). -/
def mdFrac : MatchData :=
  ⟨some 1, "Matchday 1", "Team A", "Team B", some "2.5:1", true⟩

/-- A sample match observation carrying no full-time score. -/
def mdNoScore : MatchData :=
  ⟨some 1, "Matchday 1", "Team A", "Team B", none, true⟩

/-- The state holding one SCHEDULED match (id 1) with an odds snapshot:
`saveOdds` applied to the fresh database. -/
def stateSched : DB := (saveOdds odsA dayA DB.init).2

/-- `stateSched` after Scenario A's bet: 50 at odds 2.5 on HOME. -/
def stateBet : DB := (placeBet 1 "HOME" 50 (5/2) stateSched).2

/-- `stateBet` after the match completes AWAY_WIN (Scenario C). -/
def stateSettled : DB := settleBet 1 "AWAY_WIN" stateBet

/-- A second observation of the same fixture as `mdA`, with a different
score (the re-observation in the upsert scenario). -/
def mdA2 : MatchData :=
  ⟨some 2, "Matchday 1", "Team A", "Team B", some "0:3", true⟩

/-- The SCHEDULED match row created by `saveOdds odsA dayA DB.init`. -/
def schedRow : MatchRow :=
  ⟨1, none, 1, 1, 2, 0, 0, none, dayA, "SCHEDULED", none, false⟩

/-- The team row created for "Team A". -/
def teamARow : TeamRow := ⟨1, "Team A"⟩

/-- The team row created for "Team B". -/
def teamBRow : TeamRow := ⟨2, "Team B"⟩

/-! ## General list lemmas -/

theorem txnChain_append (v : ℚ) (l l' : List Txn) :
    txnChain v (l ++ l') = (txnChain v l).bind (fun w => txnChain w l') := by
  induction l generalizing v with
  | nil => simp [txnChain]
  | cons t ts ih =>
      by_cases h : t.balance_before = v
      · simp [txnChain, h, ih]
      · simp [txnChain, h]

theorem head?_append_left {α : Type} {l : List α} (l' : List α) {a : α}
    (h : l.head? = some a) : (l ++ l').head? = some a := by
  cases l with
  | nil => simp at h
  | cons x xs => simpa using h

theorem find?_map_of_pred {α β : Type} (g : α → β) (p : β → Bool) (q : α → Bool)
    (hpq : ∀ x, p (g x) = q x) (l : List α) :
    (l.map g).find? p = (l.find? q).map g := by
  induction l with
  | nil => simp
  | cons x xs ih =>
      by_cases h : q x
      · simp [List.find?, hpq, h]
      · simp only [List.map_cons, List.find?, hpq x, h]
        exact ih

theorem find?_append_none {α : Type} {l : List α} {p : α → Bool}
    (h : l.find? p = none) (l' : List α) : (l ++ l').find? p = l'.find? p := by
  induction l with
  | nil => simp
  | cons x xs ih =>
      rcases hx : p x with _ | _
      · have h' : xs.find? p = none := by
          simpa [List.find?, hx] using h
        simpa [List.find?, hx] using ih h'
      · simp [List.find?, hx] at h

/-! ## Frame lemmas: which parts of the state each operation leaves alone -/

theorem getOrCreateStage_frame (n : String) (s : DB) :
    (getOrCreateStage n s).2.teams = s.teams ∧
    (getOrCreateStage n s).2.«matches» = s.«matches» ∧
    (getOrCreateStage n s).2.odds = s.odds ∧
    (getOrCreateStage n s).2.account = s.account ∧
    (getOrCreateStage n s).2.bets = s.bets ∧
    (getOrCreateStage n s).2.transactions = s.transactions := by
  unfold getOrCreateStage
  cases s.stages.find? (fun t => t.stage_name = n) <;>
    exact ⟨rfl, rfl, rfl, rfl, rfl, rfl⟩

theorem getOrCreateTeam_frame (n : String) (s : DB) :
    (getOrCreateTeam n s).2.stages = s.stages ∧
    (getOrCreateTeam n s).2.«matches» = s.«matches» ∧
    (getOrCreateTeam n s).2.odds = s.odds ∧
    (getOrCreateTeam n s).2.account = s.account ∧
    (getOrCreateTeam n s).2.bets = s.bets ∧
    (getOrCreateTeam n s).2.transactions = s.transactions := by
  unfold getOrCreateTeam
  cases s.teams.find? (fun t => t.team_name = n) <;>
    exact ⟨rfl, rfl, rfl, rfl, rfl, rfl⟩

theorem resolveKey_frame (st h a today : String) (s : DB) :
    (resolveKey st h a today s).2.«matches» = s.«matches» ∧
    (resolveKey st h a today s).2.odds = s.odds ∧
    (resolveKey st h a today s).2.account = s.account ∧
    (resolveKey st h a today s).2.bets = s.bets ∧
    (resolveKey st h a today s).2.transactions = s.transactions := by
  unfold resolveKey
  obtain ⟨-, h1m, h1o, h1a, h1b, h1t⟩ := getOrCreateStage_frame st s
  obtain ⟨-, h2m, h2o, h2a, h2b, h2t⟩ := getOrCreateTeam_frame h (getOrCreateStage st s).2
  obtain ⟨-, h3m, h3o, h3a, h3b, h3t⟩ :=
    getOrCreateTeam_frame a (getOrCreateTeam h (getOrCreateStage st s).2).2
  exact ⟨h3m.trans (h2m.trans h1m), h3o.trans (h2o.trans h1o),
    h3a.trans (h2a.trans h1a), h3b.trans (h2b.trans h1b),
    h3t.trans (h2t.trans h1t)⟩

theorem saveMatchCore_frame (md : MatchData) (k : Nat × Nat × Nat × String)
    (s1 : DB) :
    (saveMatchCore md k s1).2.stages = s1.stages ∧
    (saveMatchCore md k s1).2.teams = s1.teams ∧
    (saveMatchCore md k s1).2.odds = s1.odds ∧
    (saveMatchCore md k s1).2.account = s1.account ∧
    (saveMatchCore md k s1).2.bets = s1.bets ∧
    (saveMatchCore md k s1).2.transactions = s1.transactions := by
  unfold saveMatchCore
  cases s1.«matches».find? (fun m => matchKey m = k) <;>
    exact ⟨rfl, rfl, rfl, rfl, rfl, rfl⟩

theorem saveMatch_frame (md : MatchData) (today : String) (s : DB) :
    (saveMatch md today s).2.odds = s.odds ∧
    (saveMatch md today s).2.account = s.account ∧
    (saveMatch md today s).2.bets = s.bets ∧
    (saveMatch md today s).2.transactions = s.transactions := by
  unfold saveMatch
  obtain ⟨-, ho, ha, hb, ht⟩ :=
    resolveKey_frame md.tournament_stage md.homeTeam md.awayTeam today s
  obtain ⟨-, -, h2o, h2a, h2b, h2t⟩ := saveMatchCore_frame md
    (resolveKey md.tournament_stage md.homeTeam md.awayTeam today s).1
    (resolveKey md.tournament_stage md.homeTeam md.awayTeam today s).2
  exact ⟨h2o.trans ho, h2a.trans ha, h2b.trans hb, h2t.trans ht⟩

theorem ensureScheduled_frame (sid hid aid : Nat) (today : String) (s1 : DB) :
    (ensureScheduled sid hid aid today s1).2.stages = s1.stages ∧
    (ensureScheduled sid hid aid today s1).2.teams = s1.teams ∧
    (ensureScheduled sid hid aid today s1).2.odds = s1.odds ∧
    (ensureScheduled sid hid aid today s1).2.account = s1.account ∧
    (ensureScheduled sid hid aid today s1).2.bets = s1.bets ∧
    (ensureScheduled sid hid aid today s1).2.transactions = s1.transactions := by
  unfold ensureScheduled
  cases (s1.«matches».filter
      (fun m => m.stage_id = sid && m.home_team_id = hid &&
        m.away_team_id = aid && m.status = "SCHEDULED")).getLast? <;>
    exact ⟨rfl, rfl, rfl, rfl, rfl, rfl⟩

theorem saveOdds_frame (od : OddsData) (today : String) (s : DB) :
    (saveOdds od today s).2.account = s.account ∧
    (saveOdds od today s).2.bets = s.bets ∧
    (saveOdds od today s).2.transactions = s.transactions := by
  obtain ⟨-, -, ha, hb, ht⟩ :=
    resolveKey_frame od.tournament_stage od.home_team od.away_team today s
  obtain ⟨-, -, -, h2a, h2b, h2t⟩ := ensureScheduled_frame
    (resolveKey od.tournament_stage od.home_team od.away_team today s).1.1
    (resolveKey od.tournament_stage od.home_team od.away_team today s).1.2.1
    (resolveKey od.tournament_stage od.home_team od.away_team today s).1.2.2.1
    today
    (resolveKey od.tournament_stage od.home_team od.away_team today s).2
  exact ⟨h2a.trans ha, h2b.trans hb, h2t.trans ht⟩

theorem placeBet_cases (matchId : Nat) (team : String) (amount odds : ℚ)
    (s : DB) :
    placeBet matchId team amount odds s = (none, s) ∨
    placeBet matchId team amount odds s =
      (some (s.bets.length + 1),
        { s with
          bets := s.bets ++
            [⟨s.bets.length + 1, matchId, team, odds, amount, amount * odds,
              0, "PENDING", 0⟩]
          account := { s.account with balance := s.account.balance - amount }
          transactions := s.transactions ++
            [⟨some (s.bets.length + 1), "BET_PLACED", amount,
              s.account.balance, s.account.balance - amount,
              "Bet placed on " ++ team⟩] }) := by
  unfold placeBet
  dsimp only
  split
  · exact Or.inl rfl
  · split
    · exact Or.inl rfl
    · exact Or.inr rfl

theorem placeBet_frame (matchId : Nat) (team : String) (amount odds : ℚ)
    (s : DB) :
    (placeBet matchId team amount odds s).2.stages = s.stages ∧
    (placeBet matchId team amount odds s).2.teams = s.teams ∧
    (placeBet matchId team amount odds s).2.«matches» = s.«matches» ∧
    (placeBet matchId team amount odds s).2.odds = s.odds := by
  rcases placeBet_cases matchId team amount odds s with h | h <;> rw [h] <;>
    exact ⟨rfl, rfl, rfl, rfl⟩

theorem settleBet_frame (matchId : Nat) (result : String) (s : DB) :
    (settleBet matchId result s).stages = s.stages ∧
    (settleBet matchId result s).teams = s.teams ∧
    (settleBet matchId result s).«matches» = s.«matches» ∧
    (settleBet matchId result s).odds = s.odds := by
  unfold settleBet
  dsimp only
  split
  · exact ⟨rfl, rfl, rfl, rfl⟩
  · exact ⟨rfl, rfl, rfl, rfl⟩

/-! ## The ledger-replay invariant -/

theorem settleFold_txns (result : String) (pending : List PendingBet)
    (st : SettleSt) :
    ∃ l, (pending.foldl (settleStep result) st).txns = st.txns ++ l := by
  induction pending generalizing st with
  | nil => exact ⟨[], by simp⟩
  | cons p ps ih =>
      obtain ⟨l, hl⟩ := ih (settleStep result st p)
      refine ⟨[settleTxn result st.balance p] ++ l, ?_⟩
      rw [List.foldl_cons, hl]
      show (settleStep result st p).txns ++ l = _
      rw [show (settleStep result st p).txns =
        st.txns ++ [settleTxn result st.balance p] from rfl]
      simp

theorem settleFold_txnChain (result : String) (pending : List PendingBet)
    (st : SettleSt) (h : txnChain 0 st.txns = some st.balance) :
    txnChain 0 (pending.foldl (settleStep result) st).txns =
      some (pending.foldl (settleStep result) st).balance := by
  induction pending generalizing st with
  | nil => simpa using h
  | cons p ps ih =>
      rw [List.foldl_cons]
      apply ih
      rw [show (settleStep result st p).txns =
        st.txns ++ [settleTxn result st.balance p] from rfl]
      rw [txnChain_append, h]
      simp [txnChain, settleTxn]
      rfl

theorem Step.ledgerInv_preserved {s s' : DB} (h : Step s s')
    (hs : ledgerInv s) : ledgerInv s' := by
  cases h with
  | stage n s =>
      obtain ⟨-, -, -, ha, -, ht⟩ := getOrCreateStage_frame n s
      exact ⟨ht ▸ hs.1, by rw [ht, ha]; exact hs.2⟩
  | team n s =>
      obtain ⟨-, -, -, ha, -, ht⟩ := getOrCreateTeam_frame n s
      exact ⟨ht ▸ hs.1, by rw [ht, ha]; exact hs.2⟩
  | save md today s =>
      obtain ⟨-, ha, -, ht⟩ := saveMatch_frame md today s
      exact ⟨ht ▸ hs.1, by rw [ht, ha]; exact hs.2⟩
  | odds od today s =>
      obtain ⟨ha, -, ht⟩ := saveOdds_frame od today s
      exact ⟨ht ▸ hs.1, by rw [ht, ha]; exact hs.2⟩
  | place mid team amount odds s =>
      rcases placeBet_cases mid team amount odds s with hc | hc
      · rw [hc]; exact hs
      · rw [hc]
        refine ⟨head?_append_left _ hs.1, ?_⟩
        show txnChain 0 (s.transactions ++ _) = _
        rw [txnChain_append, hs.2]
        simp [txnChain]
  | settle mid r s =>
      show ledgerInv (settleBet mid r s)
      unfold settleBet
      dsimp only
      split
      · exact hs
      · refine ⟨?_, ?_⟩
        · dsimp only
          obtain ⟨l, hl⟩ := settleFold_txns r (pendingJoin s mid)
            ⟨s.account.balance, s.account.total_wins, s.account.total_losses,
              s.account.total_profit_loss, s.bets, s.transactions⟩
          rw [hl]
          exact head?_append_left _ hs.1
        · dsimp only
          exact settleFold_txnChain r (pendingJoin s mid)
            ⟨s.account.balance, s.account.total_wins, s.account.total_losses,
              s.account.total_profit_loss, s.bets, s.transactions⟩ hs.2

theorem reach_ledgerInv {s : DB} (h : Reach s) : ledgerInv s := by
  induction h with
  | init =>
      refine ⟨rfl, ?_⟩
      simp [DB.init, txnChain, initialDepositTxn]
  | step _ hstep ih => exact hstep.ledgerInv_preserved ih

/-! ## Settlement idempotence machinery -/

theorem settleStatus_ne_pending (br : String) : settleStatus br ≠ "PENDING" := by
  unfold settleStatus
  split
  · decide
  · split <;> decide

theorem pendingRow_none_of_not_pending (ms : List MatchRow) (ts : List TeamRow)
    (matchId : Nat) (b : Bet) (h : b.status ≠ "PENDING") :
    pendingRow ms ts matchId b = none := by
  unfold pendingRow
  rw [if_neg]
  intro hc
  exact h hc.2

theorem pendingRow_bet {ms : List MatchRow} {ts : List TeamRow} {matchId : Nat}
    {b : Bet} {pb : PendingBet} (h : pendingRow ms ts matchId b = some pb) :
    pb.bet = b := by
  unfold pendingRow at h
  split at h
  · split at h
    · split at h
      · cases h
        rfl
      · cases h
      · cases h
    · cases h
  · cases h

theorem settleUpd_not_pending (result : String) (pb : PendingBet) (b : Bet)
    (h : b.bet_id = pb.bet.bet_id) :
    (settleUpd result pb b).status ≠ "PENDING" := by
  unfold settleUpd
  rw [if_pos h]
  exact settleStatus_ne_pending _

theorem settleUpd_eq_of_ne (result : String) (pb : PendingBet) (b : Bet)
    (h : ¬ b.bet_id = pb.bet.bet_id) : settleUpd result pb b = b := by
  unfold settleUpd
  rw [if_neg h]

theorem settleFold_no_pending (r : String) (ms : List MatchRow)
    (ts : List TeamRow) (mid : Nat) (pending : List PendingBet) (st : SettleSt)
    (h : ∀ b ∈ st.bets, pendingRow ms ts mid b ≠ none →
      b.bet_id ∈ pending.map (fun p => p.bet.bet_id)) :
    ∀ b' ∈ (pending.foldl (settleStep r) st).bets,
      pendingRow ms ts mid b' = none := by
  induction pending generalizing st with
  | nil =>
      intro b' hb'
      by_cases hn : pendingRow ms ts mid b' = none
      · exact hn
      · exact absurd (h b' hb' hn) (by simp)
  | cons p ps ih =>
      rw [List.foldl_cons]
      apply ih
      intro b' hb' hne
      rcases List.mem_map.1 hb' with ⟨b, hb, rfl⟩
      by_cases hid : b.bet_id = p.bet.bet_id
      · exact absurd (pendingRow_none_of_not_pending ms ts mid _
          (settleUpd_not_pending r p b hid)) hne
      · rw [settleUpd_eq_of_ne r p b hid] at hne ⊢
        have hmem := h b hb hne
        simp only [List.map_cons, List.mem_cons] at hmem
        rcases hmem with h1 | h1
        · exact absurd h1 hid
        · exact h1

theorem settleBet_pendingRow_none (mid : Nat) (r : String) (s : DB) :
    ∀ b' ∈ (settleBet mid r s).bets,
      pendingRow s.«matches» s.teams mid b' = none := by
  unfold settleBet
  dsimp only
  split
  · intro b' hb'
    have hnil : pendingJoin s mid = [] := by
      rwa [← List.isEmpty_iff]
    exact (List.filterMap_eq_nil_iff.1 hnil) b' hb'
  · apply settleFold_no_pending
    intro b hb hne
    rcases Option.ne_none_iff_exists'.1 hne with ⟨pb, hpb⟩
    have hpbmem : pb ∈ pendingJoin s mid :=
      List.mem_filterMap.2 ⟨b, hb, hpb⟩
    have : pb.bet = b := pendingRow_bet hpb
    rw [List.mem_map]
    exact ⟨pb, hpbmem, by rw [this]⟩

theorem settleBet_of_no_pending {mid : Nat} {r : String} {s : DB}
    (h : pendingJoin s mid = []) : settleBet mid r s = s := by
  unfold settleBet
  rw [h]
  rfl

theorem pendingJoin_settleBet (mid : Nat) (r : String) (s : DB) :
    pendingJoin (settleBet mid r s) mid = [] := by
  obtain ⟨-, hteams, hmatches, -⟩ := settleBet_frame mid r s
  unfold pendingJoin
  rw [hteams, hmatches]
  exact List.filterMap_eq_nil_iff.2 (settleBet_pendingRow_none mid r s)

theorem pendingRow_some_of_join {ms : List MatchRow} {ts : List TeamRow}
    {mid : Nat} {b : Bet} {m : MatchRow} {ht awayT : TeamRow}
    (hm : ms.find? (fun m' => m'.match_id = mid) = some m)
    (hh : ts.find? (fun t => t.team_id = m.home_team_id) = some ht)
    (ha : ts.find? (fun t => t.team_id = m.away_team_id) = some awayT)
    (hbm : b.match_id = mid) (hbs : b.status = "PENDING") :
    pendingRow ms ts mid b = some ⟨b, m, ht.team_name, awayT.team_name⟩ := by
  unfold pendingRow
  rw [if_pos ⟨hbm, hbs⟩, hbm, hm]
  dsimp only
  rw [hh, ha]

/-! ## Upsert machinery for `saveMatch` -/

theorem matchKey_updMatch (md : MatchData) (m : MatchRow) :
    matchKey (updMatch md m) = matchKey m := rfl

theorem matchKey_newMatchRow (md : MatchData) (k : Nat × Nat × Nat × String)
    (mid : Nat) : matchKey (newMatchRow md k mid) = k := rfl

theorem saveMatchCore_found {md : MatchData} {k : Nat × Nat × Nat × String}
    {s1 : DB} {m : MatchRow}
    (h : s1.«matches».find? (fun m' => matchKey m' = k) = some m) :
    saveMatchCore md k s1 = (m.match_id,
      { s1 with
        «matches» := s1.«matches».map
          (fun m' => if m'.match_id = m.match_id then updMatch md m' else m') }) := by
  unfold saveMatchCore
  rw [h]

theorem saveMatchCore_insert {md : MatchData} {k : Nat × Nat × Nat × String}
    {s1 : DB}
    (h : s1.«matches».find? (fun m' => matchKey m' = k) = none) :
    saveMatchCore md k s1 = (s1.«matches».length + 1,
      { s1 with
        «matches» :=
          s1.«matches» ++ [newMatchRow md k (s1.«matches».length + 1)] }) := by
  unfold saveMatchCore
  rw [h]

theorem find?_key_map_upd (md : MatchData) (i : Nat)
    (k : Nat × Nat × Nat × String) (l : List MatchRow) :
    (l.map (fun m' => if m'.match_id = i then updMatch md m' else m')).find?
      (fun x => matchKey x = k) =
    (l.find? (fun x => matchKey x = k)).map
      (fun m' => if m'.match_id = i then updMatch md m' else m') := by
  apply find?_map_of_pred
  intro x
  dsimp only
  split <;> rfl

theorem saveMatchCore_keys (md : MatchData) (k : Nat × Nat × Nat × String)
    (s1 : DB) :
    (saveMatchCore md k s1).2.«matches».map matchKey =
      s1.«matches».map matchKey ∨
    ((saveMatchCore md k s1).2.«matches».map matchKey =
      s1.«matches».map matchKey ++ [k] ∧
     s1.«matches».find? (fun m' => matchKey m' = k) = none) := by
  cases hf : s1.«matches».find? (fun m' => matchKey m' = k) with
  | some m =>
      left
      rw [saveMatchCore_found hf]
      dsimp only
      rw [List.map_map]
      apply List.map_congr_left
      intro a _
      show matchKey (if a.match_id = m.match_id then updMatch md a else a) =
        matchKey a
      split <;> rfl
  | none =>
      right
      refine ⟨?_, rfl⟩
      rw [saveMatchCore_insert hf]
      dsimp only
      rw [List.map_append]
      rfl

theorem tupleUnique_saveMatchCore (md : MatchData)
    (k : Nat × Nat × Nat × String) (s1 : DB) (h : tupleUnique s1.«matches») :
    tupleUnique (saveMatchCore md k s1).2.«matches» := by
  rcases saveMatchCore_keys md k s1 with hk | ⟨hk, hf⟩
  · unfold tupleUnique
    rw [hk]
    exact h
  · unfold tupleUnique
    rw [hk, List.nodup_append]
    refine ⟨h, List.nodup_singleton _, ?_⟩
    intro x hx hx'
    rcases List.mem_map.1 hx with ⟨m, hm, hkey⟩
    have hne := List.find?_eq_none.1 hf m hm
    simp only [List.mem_singleton] at hx'
    subst hx'
    simp only [decide_eq_true_eq] at hne
    exact hne hkey

theorem saveMatchCore_find?_after (md : MatchData)
    (k : Nat × Nat × Nat × String) (s1 : DB) :
    ∃ m', (saveMatchCore md k s1).2.«matches».find?
        (fun x => matchKey x = k) = some m' ∧
      m'.match_id = (saveMatchCore md k s1).1 := by
  cases hf : s1.«matches».find? (fun x => matchKey x = k) with
  | some m =>
      refine ⟨updMatch md m, ?_, ?_⟩
      · rw [saveMatchCore_found hf]
        dsimp only
        rw [find?_key_map_upd, hf]
        dsimp only [Option.map]
        rw [if_pos rfl]
      · rw [saveMatchCore_found hf]
        rfl
  | none =>
      refine ⟨newMatchRow md k (s1.«matches».length + 1), ?_, ?_⟩
      · rw [saveMatchCore_insert hf]
        dsimp only
        rw [find?_append_none hf]
        simp [List.find?, matchKey_newMatchRow]
      · rw [saveMatchCore_insert hf]
        rfl

/-- `saveMatch` is definitionally resolution followed by the upsert core. -/
theorem saveMatch_eq_core (md : MatchData) (today : String) (s : DB) :
    saveMatch md today s = saveMatchCore md
      (resolveKey md.tournament_stage md.homeTeam md.awayTeam today s).1
      (resolveKey md.tournament_stage md.homeTeam md.awayTeam today s).2 := rfl

/-! ## Status/result invariant machinery -/

theorem saveMatchCore_mem (md : MatchData) (k : Nat × Nat × Nat × String)
    (s1 : DB) :
    ∀ m' ∈ (saveMatchCore md k s1).2.«matches»,
      m' ∈ s1.«matches» ∨ m'.status = "COMPLETED" := by
  cases hf : s1.«matches».find? (fun m' => matchKey m' = k) with
  | some m =>
      rw [saveMatchCore_found hf]
      intro m' hm'
      dsimp only at hm'
      rcases List.mem_map.1 hm' with ⟨x, hx, hxeq⟩
      by_cases hxm : x.match_id = m.match_id
      · right
        rw [← hxeq, if_pos hxm]
        rfl
      · left
        rw [← hxeq, if_neg hxm]
        exact hx
  | none =>
      rw [saveMatchCore_insert hf]
      intro m' hm'
      dsimp only at hm'
      rcases List.mem_append.1 hm' with h1 | h1
      · exact Or.inl h1
      · right
        rw [List.mem_singleton.1 h1]
        rfl

theorem ensureScheduled_mem (sid hid aid : Nat) (today : String) (s1 : DB) :
    ∀ m' ∈ (ensureScheduled sid hid aid today s1).2.«matches»,
      m' ∈ s1.«matches» ∨ (m'.status = "SCHEDULED" ∧ m'.result = none) := by
  unfold ensureScheduled
  cases (s1.«matches».filter
      (fun m => m.stage_id = sid && m.home_team_id = hid &&
        m.away_team_id = aid && m.status = "SCHEDULED")).getLast? with
  | some m => exact fun m' hm' => Or.inl hm'
  | none =>
      intro m' hm'
      dsimp only at hm'
      rcases List.mem_append.1 hm' with h1 | h1
      · exact Or.inl h1
      · right
        rw [List.mem_singleton.1 h1]
        exact ⟨rfl, rfl⟩

theorem Step.resultStatusInv_preserved {s s' : DB} (h : Step s s')
    (hs : resultStatusInv s) : resultStatusInv s' := by
  cases h with
  | stage n s =>
      intro m hm
      exact hs m ((getOrCreateStage_frame n s).2.1 ▸ hm)
  | team n s =>
      intro m hm
      exact hs m ((getOrCreateTeam_frame n s).2.1 ▸ hm)
  | place mid team amount odds s =>
      intro m hm
      exact hs m ((placeBet_frame mid team amount odds s).2.2.1 ▸ hm)
  | settle mid r s =>
      intro m hm
      exact hs m ((settleBet_frame mid r s).2.2.1 ▸ hm)
  | save md today s =>
      intro m' hm'
      rw [saveMatch_eq_core] at hm'
      rcases saveMatchCore_mem md
          (resolveKey md.tournament_stage md.homeTeam md.awayTeam today s).1
          (resolveKey md.tournament_stage md.homeTeam md.awayTeam today s).2
          m' hm' with h1 | h1
      · exact hs m' ((resolveKey_frame md.tournament_stage md.homeTeam
          md.awayTeam today s).1 ▸ h1)
      · refine ⟨fun _ => h1, fun hsched => ?_⟩
        rw [h1] at hsched
        exact absurd hsched (by decide)
  | odds od today s =>
      intro m' hm'
      have hmx : (saveOdds od today s).2.«matches» =
          (ensureScheduled
            (resolveKey od.tournament_stage od.home_team od.away_team today s).1.1
            (resolveKey od.tournament_stage od.home_team od.away_team today s).1.2.1
            (resolveKey od.tournament_stage od.home_team od.away_team today s).1.2.2.1
            today
            (resolveKey od.tournament_stage od.home_team od.away_team today s).2).2.«matches» := rfl
      rw [hmx] at hm'
      rcases ensureScheduled_mem _ _ _ today _ m' hm' with h1 | h1
      · exact hs m' ((resolveKey_frame od.tournament_stage od.home_team
          od.away_team today s).1 ▸ h1)
      · exact ⟨fun hsome => absurd (h1.2 ▸ hsome) (by decide),
          fun _ => h1.2⟩

theorem reach_resultStatusInv {s : DB} (h : Reach s) : resultStatusInv s := by
  induction h with
  | init =>
      intro m hm
      simp [DB.init] at hm
  | step _ hstep ih => exact hstep.resultStatusInv_preserved ih

/-! ## Exact-name idempotence of the identity resolver -/

theorem getOrCreateTeam_idem (n : String) (s : DB) :
    getOrCreateTeam n (getOrCreateTeam n s).2 = getOrCreateTeam n s := by
  cases hf : s.teams.find? (fun t => t.team_name = n) with
  | some t =>
      have h1 : getOrCreateTeam n s = (t.team_id, s) := by
        unfold getOrCreateTeam
        rw [hf]
      rw [h1]
      exact h1
  | none =>
      have h1 : getOrCreateTeam n s = (s.teams.length + 1,
          { s with teams := s.teams ++ [⟨s.teams.length + 1, n⟩] }) := by
        unfold getOrCreateTeam
        rw [hf]
      rw [h1]
      show getOrCreateTeam n { s with teams := s.teams ++ [⟨s.teams.length + 1, n⟩] } = _
      unfold getOrCreateTeam
      rw [show ({ s with teams := s.teams ++ [⟨s.teams.length + 1, n⟩] } : DB).teams
        = s.teams ++ [⟨s.teams.length + 1, n⟩] from rfl]
      rw [find?_append_none hf]
      simp [List.find?]

theorem getOrCreateStage_idem (n : String) (s : DB) :
    getOrCreateStage n (getOrCreateStage n s).2 = getOrCreateStage n s := by
  cases hf : s.stages.find? (fun t => t.stage_name = n) with
  | some t =>
      have h1 : getOrCreateStage n s = (t.stage_id, s) := by
        unfold getOrCreateStage
        rw [hf]
      rw [h1]
      exact h1
  | none =>
      have h1 : getOrCreateStage n s = (s.stages.length + 1,
          { s with stages := s.stages ++ [⟨s.stages.length + 1, n⟩] }) := by
        unfold getOrCreateStage
        rw [hf]
      rw [h1]
      show getOrCreateStage n { s with stages := s.stages ++ [⟨s.stages.length + 1, n⟩] } = _
      unfold getOrCreateStage
      rw [show ({ s with stages := s.stages ++ [⟨s.stages.length + 1, n⟩] } : DB).stages
        = s.stages ++ [⟨s.stages.length + 1, n⟩] from rfl]
      rw [find?_append_none hf]
      simp [List.find?]

/-! ## The claims -/

/-- C1: starting from balance 1000, Scenario A (stake 50 at odds 2.5 on HOME
of a SCHEDULED match) leaves balance 950, potential payout 125 and a PENDING
bet; but settling the match as AWAY_WIN leaves the balance at 900, not 950
as claimed — settlement applies `profit_loss = -50` to a balance that was
already debited by the stake at placement time. The other claimed fields
(status LOST, actual payout 0, profit/loss −50, total_losses 1) do hold. -/
theorem scenarioC_balance_cx :
    stateBet.account.balance = 950 ∧
    stateBet.bets.map Bet.status = ["PENDING"] ∧
    stateBet.bets.map Bet.potential_win = [125] ∧
    stateSettled.bets.map Bet.status = ["LOST"] ∧
    stateSettled.bets.map Bet.actual_win = [0] ∧
    stateSettled.bets.map Bet.profit_loss = [-50] ∧
    stateSettled.account.total_losses = 1 ∧
    ¬ stateSettled.account.balance = 950 := by
  with_unfolding_all decide

/-- C1 (amended): the same scenario settles the bet as LOST with actual
payout 0 and profit/loss −50 and sets total_losses to 1, but the final
account balance is 900: the settlement transaction debits the stake a
second time (950 → 900). -/
theorem scenarioC_settles_at_900 :
    stateBet.account.balance = 950 ∧
    stateBet.bets = [⟨1, 1, "HOME", 5/2, 50, 125, 0, "PENDING", 0⟩] ∧
    stateSettled.bets = [⟨1, 1, "HOME", 5/2, 50, 125, 0, "LOST", -50⟩] ∧
    stateSettled.account.balance = 900 ∧
    stateSettled.account.total_losses = 1 ∧
    stateSettled.transactions.getLast?.map Txn.balance_before = some 950 ∧
    stateSettled.transactions.getLast?.map Txn.balance_after = some 900 := by
  with_unfolding_all decide

/-- C4: for the three sides HOME/DRAW/AWAY and the three results
HOME_WIN/AWAY_WIN/DRAW, `determineBetResult` agrees with the §4.6 outcome
table — WIN exactly at (HOME, HOME_WIN), (AWAY, AWAY_WIN), (DRAW, DRAW) and
LOSS in the other six cells — and the settlement status derived from it is
never PUSH. -/
theorem determineBetResult_matches_table (side result : String) (hs₁ hs₂ : ℚ)
    (hside : side = "HOME" ∨ side = "DRAW" ∨ side = "AWAY")
    (hres : result = "HOME_WIN" ∨ result = "AWAY_WIN" ∨ result = "DRAW") :
    determineBetResult side result hs₁ hs₂ = specOutcome side result ∧
    (specOutcome side result = "WIN" ↔
      (side, result) ∈ ([("HOME", "HOME_WIN"), ("AWAY", "AWAY_WIN"),
        ("DRAW", "DRAW")] : List (String × String))) ∧
    settleStatus (determineBetResult side result hs₁ hs₂) ≠ "PUSH" := by
  rcases hside with rfl | rfl | rfl <;> rcases hres with rfl | rfl | rfl <;>
    exact ⟨rfl, by decide, by simp [determineBetResult, settleStatus]⟩

/-- C4 witness: the table instance (HOME, AWAY_WIN) evaluated at scores
2 : 1. -/
theorem determineBetResult_matches_table_witness :
    determineBetResult "HOME" "AWAY_WIN" 2 1 = specOutcome "HOME" "AWAY_WIN" ∧
    (specOutcome "HOME" "AWAY_WIN" = "WIN" ↔
      ("HOME", "AWAY_WIN") ∈ ([("HOME", "HOME_WIN"), ("AWAY", "AWAY_WIN"),
        ("DRAW", "DRAW")] : List (String × String))) ∧
    settleStatus (determineBetResult "HOME" "AWAY_WIN" 2 1) ≠ "PUSH" :=
  determineBetResult_matches_table "HOME" "AWAY_WIN" 2 1 (Or.inl rfl)
    (Or.inr (Or.inl rfl))

/-- C10: for a side outside {HOME, DRAW, AWAY}, `determineBetResult` returns
LOSS for every match result (so the bet is settled as LOST, never rejected
or pushed), and the two score parameters never influence the outcome. -/
theorem determineBetResult_default_loss (side result : String)
    (hs₁ hs₂ hs₃ hs₄ : ℚ)
    (hside : ¬ (side = "HOME" ∨ side = "DRAW" ∨ side = "AWAY")) :
    determineBetResult side result hs₁ hs₂ = "LOSS" ∧
    settleStatus (determineBetResult side result hs₁ hs₂) = "LOST" ∧
    determineBetResult side result hs₁ hs₂ =
      determineBetResult side result hs₃ hs₄ := by
  have hH : side ≠ "HOME" := fun h => hside (Or.inl h)
  have hD : side ≠ "DRAW" := fun h => hside (Or.inr (Or.inl h))
  have hA : side ≠ "AWAY" := fun h => hside (Or.inr (Or.inr h))
  have key : ∀ x y : ℚ, determineBetResult side result x y = "LOSS" := by
    intro x y
    simp [determineBetResult, hH, hD, hA]
  refine ⟨key hs₁ hs₂, ?_, (key hs₁ hs₂).trans (key hs₃ hs₄).symm⟩
  rw [key hs₁ hs₂]
  decide

/-- C10 witness: the malformed side "TEAM A" with result DRAW and arbitrary
scores settles as a loss. -/
theorem determineBetResult_default_loss_witness :
    determineBetResult "TEAM A" "DRAW" 1 2 = "LOSS" ∧
    settleStatus (determineBetResult "TEAM A" "DRAW" 1 2) = "LOST" ∧
    determineBetResult "TEAM A" "DRAW" 1 2 =
      determineBetResult "TEAM A" "DRAW" 3 4 :=
  determineBetResult_default_loss "TEAM A" "DRAW" 1 2 3 4 (by decide)

/-- C5: the claim fails — `getOrCreateTeam` looks names up by exact string
equality with no trimming or case folding, so the normalization-equal names
"Team A" and "team a" produce two distinct team rows with distinct ids. -/
theorem team_normalization_cx :
    specNormalize "Team A" = specNormalize "team a" ∧
    (getOrCreateTeam "Team A" DB.init).1 = 1 ∧
    (getOrCreateTeam "team a" (getOrCreateTeam "Team A" DB.init).2).1 = 2 ∧
    (getOrCreateTeam "team a" (getOrCreateTeam "Team A" DB.init).2).2.teams =
      [⟨1, "Team A"⟩, ⟨2, "team a"⟩] := by
  with_unfolding_all decide

/-- C5 (amended): resolution is idempotent only up to exact string equality:
repeating `getOrCreateTeam` (resp. `getOrCreateStage`) with the identical
name string returns the same id and leaves the state unchanged, so no second
entity is ever created for the same exact name. -/
theorem getOrCreate_idempotent_exact (name : String) (s : DB) :
    getOrCreateTeam name (getOrCreateTeam name s).2 = getOrCreateTeam name s ∧
    getOrCreateStage name (getOrCreateStage name s).2 =
      getOrCreateStage name s :=
  ⟨getOrCreateTeam_idem name s, getOrCreateStage_idem name s⟩

/-- C8: the claim's "iff" fails — `saveMatch` marks a match COMPLETED even
when the observation carries no score string, in which case the stored
result is null: a COMPLETED row with a null result. -/
theorem completed_null_result_cx :
    (saveMatch mdNoScore dayA DB.init).2.«matches».map
      (fun m => (m.status, m.result)) = [("COMPLETED", none)] := by
  with_unfolding_all decide

/-- C8 (amended): in every reachable state a non-null result appears only on
COMPLETED matches, and every SCHEDULED match (in particular those created by
`saveOdds`) has a null result; the converse — every COMPLETED match has a
non-null result — is false (see the counterexample). -/
theorem result_nonnull_only_if_completed {s : DB} (h : Reach s) :
    ∀ m ∈ s.«matches», (m.result.isSome → m.status = "COMPLETED") ∧
      (m.status = "SCHEDULED" → m.result = none) :=
  reach_resultStatusInv h

/-- C8 witness: the SCHEDULED match created by `saveOdds` in the reachable
state `stateSched` has a null result. -/
theorem result_nonnull_only_if_completed_witness : schedRow.result = none :=
  (result_nonnull_only_if_completed
    (Reach.step Reach.init (Step.odds odsA dayA DB.init)) schedRow
    (by with_unfolding_all decide)).2 rfl

/-- C3: the claim fails — `placeBet` creates a bet on a COMPLETED match,
with a non-positive stake, and with no odds row in the odds log. -/
theorem placeBet_ignores_preconditions_cx :
    (saveMatch mdA dayA DB.init).2.«matches».map MatchRow.status =
      ["COMPLETED"] ∧
    (saveMatch mdA dayA DB.init).2.odds = [] ∧
    ¬ (0 : ℚ) > 0 ∧
    (placeBet 1 "HOME" 0 (5/2) (saveMatch mdA dayA DB.init).2).1 = some 1 ∧
    (placeBet 1 "HOME" 0 (5/2) (saveMatch mdA dayA DB.init).2).2.bets.map
      Bet.status = ["PENDING"] := by
  with_unfolding_all decide

/-- C3 (amended): `placeBet` checks only that the stake does not exceed the
account balance, and (through the foreign-key constraint) that the match id
exists; it succeeds exactly when both hold, leaves the state unchanged on
failure, and otherwise inserts a PENDING bet with
`potential_win = amount * odds` and debits the stake — it never checks the
match status, the sign of the stake, or the odds log. -/
theorem placeBet_checks_balance_only (matchId : Nat) (team : String)
    (amount odds : ℚ) (s : DB) :
    ((placeBet matchId team amount odds s).1 ≠ none ↔
      ¬ s.account.balance < amount ∧
      ¬ (s.«matches».find? (fun m => m.match_id = matchId)).isNone) ∧
    ((placeBet matchId team amount odds s).1 = none →
      (placeBet matchId team amount odds s).2 = s) ∧
    ((placeBet matchId team amount odds s).1 ≠ none →
      (placeBet matchId team amount odds s).1 = some (s.bets.length + 1) ∧
      (placeBet matchId team amount odds s).2.bets = s.bets ++
        [⟨s.bets.length + 1, matchId, team, odds, amount, amount * odds, 0,
          "PENDING", 0⟩] ∧
      (placeBet matchId team amount odds s).2.account.balance =
        s.account.balance - amount) := by
  by_cases h1 : s.account.balance < amount
  · simp [placeBet, h1]
  · by_cases h2 : (s.«matches».find? (fun m => m.match_id = matchId)).isNone
    · simp [placeBet, h1, h2]
    · simp [placeBet, h1, h2]

/-- C3 witness: a bet of 50 on the scheduled match of `stateSched` is
accepted, appended as PENDING, and debits the balance by the stake. -/
theorem placeBet_checks_balance_only_witness :
    (placeBet 1 "HOME" 50 (5/2) stateSched).1 =
      some (stateSched.bets.length + 1) ∧
    (placeBet 1 "HOME" 50 (5/2) stateSched).2.account.balance =
      stateSched.account.balance - 50 :=
  ⟨((placeBet_checks_balance_only 1 "HOME" 50 (5/2) stateSched).2.2
      (by with_unfolding_all decide)).1,
   ((placeBet_checks_balance_only 1 "HOME" 50 (5/2) stateSched).2.2
      (by with_unfolding_all decide)).2.2⟩

/-- C2: the claim fails at its own base case — in the (reachable) freshly
initialized state the journal's only transaction records `balance_before =
0`, not the initial balance 1000, so chain-replay started at the initial
balance fails on the first link. -/
theorem ledger_replay_from_initialBalance_cx :
    Reach DB.init ∧
    DB.init.transactions.map Txn.balance_before = [0] ∧
    txnChain initialBalance DB.init.transactions = none ∧
    ¬ txnChain initialBalance DB.init.transactions =
        some DB.init.account.balance := by
  refine ⟨Reach.init, ?_, ?_, ?_⟩ <;> with_unfolding_all decide

/-- C2 (amended): in every reachable state, chain-replaying the journal from
0 reproduces the stored account balance: the first transaction is the
initial-setup DEPOSIT taking the balance from 0 to the initial balance, each
transaction's `balance_before` equals its predecessor's `balance_after`, and
the last `balance_after` equals the account's stored balance (all of which
is what `txnChain` validates). -/
theorem ledger_replay_from_zero {s : DB} (h : Reach s) :
    s.transactions.head? = some initialDepositTxn ∧
    txnChain 0 s.transactions = some s.account.balance :=
  reach_ledgerInv h

/-- C2 witness: the reachable state with one odds snapshot and one placed
bet replays from 0 to its stored balance of 950. -/
theorem ledger_replay_from_zero_witness :
    txnChain 0 stateBet.transactions = some stateBet.account.balance :=
  (ledger_replay_from_zero
    (Reach.step (Reach.step Reach.init (Step.odds odsA dayA DB.init))
      (Step.place 1 "HOME" 50 (5/2) stateSched))).2

/-- C7: settlement is idempotent — when the match of `matchId` and its two
team rows exist (so the settlement JOIN covers every pending bet of the
match), no bet on the match is left PENDING after `settleBet`, and running
`settleBet` again with the same arguments returns the state unchanged (the
second call finds no pending bets and writes nothing). -/
theorem settleBet_idempotent {mid : Nat} {r : String} {s : DB} {m : MatchRow}
    {ht awayT : TeamRow}
    (hm : s.«matches».find? (fun m' => m'.match_id = mid) = some m)
    (hh : s.teams.find? (fun t => t.team_id = m.home_team_id) = some ht)
    (ha : s.teams.find? (fun t => t.team_id = m.away_team_id) = some awayT) :
    (∀ b ∈ (settleBet mid r s).bets, b.match_id = mid →
      b.status ≠ "PENDING") ∧
    settleBet mid r (settleBet mid r s) = settleBet mid r s := by
  refine ⟨?_, settleBet_of_no_pending (pendingJoin_settleBet mid r s)⟩
  intro b hb hbm hbs
  have hnone := settleBet_pendingRow_none mid r s b hb
  rw [pendingRow_some_of_join hm hh ha hbm hbs] at hnone
  cases hnone

/-- C7 witness: settling the Scenario state twice equals settling it once. -/
theorem settleBet_idempotent_witness :
    settleBet 1 "AWAY_WIN" (settleBet 1 "AWAY_WIN" stateBet) =
      settleBet 1 "AWAY_WIN" stateBet :=
  (@settleBet_idempotent 1 "AWAY_WIN" stateBet schedRow teamARow teamBRow
    (by with_unfolding_all decide) (by with_unfolding_all decide)
    (by with_unfolding_all decide)).2

/-- C9: the claim fails on non-integer numerals — `saveMatch` parses score
sides with JavaScript `Number`, so the side `"2.5"` does not parse as an
integer yet is stored as 2.5, not as the claimed default 0. -/
theorem score_parse_integer_cx :
    specIntParse "2.5" = none ∧
    scoreAt "2.5:1" 0 = 5/2 ∧
    ¬ scoreAt "2.5:1" 0 = 0 ∧
    (saveMatch mdFrac dayA DB.init).2.«matches».map MatchRow.home_score =
      [5/2] ∧
    (saveMatch mdFrac dayA DB.init).2.«matches».map MatchRow.result =
      [some "HOME_WIN"] := by
  with_unfolding_all decide

/-- C9 (amended): `saveMatch` splits the score string on ':'; a side that is
missing or fails to parse as a JavaScript number is stored as 0, a side that
parses is stored with its parsed (possibly non-integer) value, and for a
present score the stored result is HOME_WIN / AWAY_WIN / DRAW exactly as the
parsed home score is greater than / less than / equal to the away score. -/
theorem score_parse_number_semantics (sc : String) (i : Nat) (h a : ℚ) :
    ((sc.splitOn ":").get? i = none → scoreAt sc i = 0) ∧
    (∀ tok, (sc.splitOn ":").get? i = some tok → jsNumber tok = none →
      scoreAt sc i = 0) ∧
    (∀ tok q, (sc.splitOn ":").get? i = some tok → jsNumber tok = some q →
      scoreAt sc i = q) ∧
    (sc ≠ "" → parsedScores (some sc) = (scoreAt sc 0, scoreAt sc 1,
      some (deriveResult (scoreAt sc 0) (scoreAt sc 1)))) ∧
    (deriveResult h a = "HOME_WIN" ↔ h > a) ∧
    (deriveResult h a = "AWAY_WIN" ↔ a > h) ∧
    (deriveResult h a = "DRAW" ↔ h = a) := by
  refine ⟨?_, ?_, ?_, ?_, ?_, ?_, ?_⟩
  · intro h0
    unfold scoreAt
    rw [h0]
    rfl
  · intro tok h1 h2
    unfold scoreAt
    rw [h1]
    dsimp only [Option.map]
    rw [h2]
    rfl
  · intro tok q h1 h2
    unfold scoreAt
    rw [h1]
    dsimp only [Option.map]
    rw [h2]
    rfl
  · intro hne
    unfold parsedScores
    dsimp only
    rw [if_neg hne]
  · by_cases h1 : h > a
    · simp [deriveResult, h1]
    · by_cases h2 : a > h <;> simp [deriveResult, h1, h2]
  · by_cases h1 : h > a
    · simp [deriveResult, h1, lt_asymm h1]
    · by_cases h2 : a > h <;> simp [deriveResult, h1, h2]
  · by_cases h1 : h > a
    · simp [deriveResult, h1, ne_of_gt h1]
    · by_cases h2 : a > h
      · simp [deriveResult, h1, h2, (ne_of_gt h2).symm]
      · simp [deriveResult, h1, h2]
        exact le_antisymm (not_lt.1 h1) (not_lt.1 h2)

/-- C9 witness: a non-numeric side defaults to 0, a fractional side keeps
its parsed value, a missing side defaults to 0, and 2 : 1 derives
HOME_WIN. -/
theorem score_parse_number_semantics_witness :
    scoreAt "x:3" 0 = 0 ∧ scoreAt "2.5:1" 1 = 1 ∧ scoreAt "2" 1 = 0 ∧
    deriveResult 2 1 = "HOME_WIN" :=
  ⟨(score_parse_number_semantics "x:3" 0 0 0).2.1 "x"
      (by with_unfolding_all decide) (by with_unfolding_all decide),
   (score_parse_number_semantics "2.5:1" 1 0 0).2.2.1 "1" 1
      (by with_unfolding_all decide) (by with_unfolding_all decide),
   (score_parse_number_semantics "2" 1 0 0).1 (by with_unfolding_all decide),
   (score_parse_number_semantics "2" 0 2 1).2.2.2.2.1.mpr
      (by with_unfolding_all decide)⟩

/-- C6: `saveMatch` is an upsert on the natural key — if a second call
resolves to the same `(stage_id, home_team_id, away_team_id, match_date)`
key as a first call, it returns the same match id and rewrites the existing
row in place (updating score, full-time score, status, result and is_final
via `updMatch`) without inserting a row; and starting from a state with at
most one row per key, at most one row per key remains. -/
theorem saveMatch_upsert_dedup (md₁ md₂ : MatchData) (today : String) (s : DB)
    (hkey : (resolveKey md₂.tournament_stage md₂.homeTeam md₂.awayTeam today
        (saveMatch md₁ today s).2).1 =
      (resolveKey md₁.tournament_stage md₁.homeTeam md₁.awayTeam today s).1) :
    (saveMatch md₂ today (saveMatch md₁ today s).2).1 =
      (saveMatch md₁ today s).1 ∧
    (saveMatch md₂ today (saveMatch md₁ today s).2).2.«matches» =
      (saveMatch md₁ today s).2.«matches».map
        (fun m' => if m'.match_id = (saveMatch md₁ today s).1
          then updMatch md₂ m' else m') ∧
    (tupleUnique s.«matches» →
      tupleUnique (saveMatch md₂ today (saveMatch md₁ today s).2).2.«matches») := by
  obtain ⟨m', hfind, hid⟩ := saveMatchCore_find?_after md₁
    (resolveKey md₁.tournament_stage md₁.homeTeam md₁.awayTeam today s).1
    (resolveKey md₁.tournament_stage md₁.homeTeam md₁.awayTeam today s).2
  have hid' : m'.match_id = (saveMatch md₁ today s).1 := by
    rw [saveMatch_eq_core]
    exact hid
  have hfind' : (saveMatch md₁ today s).2.«matches».find?
      (fun x => matchKey x =
        (resolveKey md₁.tournament_stage md₁.homeTeam md₁.awayTeam today s).1) =
      some m' := by
    rw [saveMatch_eq_core]
    exact hfind
  have hmx : (resolveKey md₂.tournament_stage md₂.homeTeam md₂.awayTeam today
      (saveMatch md₁ today s).2).2.«matches» =
      (saveMatch md₁ today s).2.«matches» :=
    (resolveKey_frame _ _ _ _ _).1
  have hfind₂ : (resolveKey md₂.tournament_stage md₂.homeTeam md₂.awayTeam
      today (saveMatch md₁ today s).2).2.«matches».find?
      (fun x => matchKey x =
        (resolveKey md₂.tournament_stage md₂.homeTeam md₂.awayTeam today
          (saveMatch md₁ today s).2).1) = some m' := by
    rw [hmx, hkey]
    exact hfind'
  have e₂ := (saveMatch_eq_core md₂ today (saveMatch md₁ today s).2).trans
    (@saveMatchCore_found md₂ _ _ _ hfind₂)
  refine ⟨?_, ?_, ?_⟩
  · rw [e₂]
    exact hid'
  · rw [e₂]
    dsimp only
    rw [hmx, hid']
  · intro hu
    have hu₀ : tupleUnique (resolveKey md₁.tournament_stage md₁.homeTeam
        md₁.awayTeam today s).2.«matches» := by
      rw [(resolveKey_frame md₁.tournament_stage md₁.homeTeam md₁.awayTeam
        today s).1]
      exact hu
    have hu₁ : tupleUnique (saveMatch md₁ today s).2.«matches» := by
      rw [saveMatch_eq_core]
      exact tupleUnique_saveMatchCore md₁ _ _ hu₀
    have hu₂ : tupleUnique (resolveKey md₂.tournament_stage md₂.homeTeam
        md₂.awayTeam today (saveMatch md₁ today s).2).2.«matches» := by
      rw [hmx]
      exact hu₁
    rw [saveMatch_eq_core md₂ today (saveMatch md₁ today s).2]
    exact tupleUnique_saveMatchCore md₂ _ _ hu₂

/-- C6 witness: re-observing the `mdA` fixture with a new score on the same
day updates the same match id and keeps the key unique. -/
theorem saveMatch_upsert_dedup_witness :
    (saveMatch mdA2 dayA (saveMatch mdA dayA DB.init).2).1 =
      (saveMatch mdA dayA DB.init).1 ∧
    tupleUnique (saveMatch mdA2 dayA (saveMatch mdA dayA DB.init).2).2.«matches» :=
  ⟨(saveMatch_upsert_dedup mdA mdA2 dayA DB.init
      (by with_unfolding_all decide)).1,
   (saveMatch_upsert_dedup mdA mdA2 dayA DB.init
      (by with_unfolding_all decide)).2.2 (by simp [tupleUnique, DB.init])⟩

end VSoccer
